import Mathlib

/-!
Verification of the reusable helper layer of the test-automation repository:
the HTTP probe helper (`apiRequest`, `validateResponseSchema`, `testRateLimit`
from the custom-commands file) and the test-data generator
(`TestDataGenerator` and `ApiHelpers` from the utilities file).

The JavaScript source is embedded shallowly:
  * a JS object is an association list of bindings where a later binding for
    the same key overrides an earlier one (`jsGet` returns the last binding),
    so the JS spread `\x7b ...a, ...b \x7d` is list append;
  * wall-clock time and `Math.random()` outcomes are passed in explicitly as
    environment values, so every function is deterministic in its inputs;
  * the underlying `cy.request` transport is a parameter: it returns either a
    transport-level failure (DNS, connection refused, timeout) or an HTTP
    response with any status code.
-/

namespace Reap

/-- A primitive JS value as it appears in the request and response bodies of
the suite: null, undefined, booleans, numbers and strings. -/
inductive JPrim where
  | pnull
  | pundef
  | pbool (b : Bool)
  | pnum (n : Int)
  | pstr (s : String)
deriving Repr, DecidableEq

/-- A JS object: an association list of bindings; a later binding for the
same key overrides an earlier one, which models object-literal evaluation
and the object spread operator (spread = append). -/
abbrev JObj : Type := List (String × JPrim)

/-- Property lookup on a JS object (own properties only): the value of the
last binding for the key, as JS object evaluation keeps the latest value. -/
def jsGet {α : Type} : List (String × α) → String → Option α
  | [], _ => none
  | p :: rest, k =>
    match jsGet rest k with
    | some v => some v
    | none => if p.1 = k then some p.2 else none

/-- A key is absent from an object exactly when no binding carries it. -/
theorem jsGet_eq_none_iff {α : Type} (o : List (String × α)) (k : String) :
    jsGet o k = none ↔ ∀ p ∈ o, p.1 ≠ k := by
  induction o with
  | nil => simp [jsGet]
  | cons p rest ih =>
    simp only [jsGet]
    cases hr : jsGet rest k with
    | some v =>
      simp only [List.mem_cons]
      constructor
      · intro h; cases h
      · intro h
        have : jsGet rest k = none := ih.mpr (fun q hq => h q (Or.inr hq))
        rw [hr] at this; cases this
    | none =>
      by_cases hk : p.1 = k
      · simp [hk]
      · simp only [hk, if_false, List.mem_cons]
        constructor
        · intro _ q hq
          rcases hq with rfl | hq
          · exact hk
          · exact (ih.mp hr) q hq
        · intro _; trivial

/-- The property names every plain JS object inherits from
`Object.prototype` (the own property names of `Object.prototype`, Annex B
members included): a bracket read or an `in`-style presence test on a plain
object finds these even when the object carries no own binding for them,
and the value found is a truthy native function (for `__proto__`, the
prototype object itself), never `null` or `undefined`. -/
def objectPrototypeKeys : List String :=
  ["constructor", "hasOwnProperty", "isPrototypeOf", "propertyIsEnumerable",
   "toLocaleString", "toString", "valueOf", "__proto__", "__defineGetter__",
   "__defineSetter__", "__lookupGetter__", "__lookupSetter__"]

/-- What a bracket read (or an `in`-style presence test, as in Chai's plain
`property` assertion) finds on a plain object: an own binding, an inherited
`Object.prototype` member, or nothing (`undefined`). -/
inductive PropRead (α : Type) where
  | own (v : α)
  | inherited (name : String)
  | absent
deriving Repr, DecidableEq

/-- Bracket property read on a plain JS object: the own binding if one
exists, else the inherited `Object.prototype` member of that name, else
`undefined`. -/
def jsRead {α : Type} (o : List (String × α)) (k : String) : PropRead α :=
  match jsGet o k with
  | some v => .own v
  | none => if k ∈ objectPrototypeKeys then .inherited k else .absent

/-- HTTP headers: a JS object whose values are strings. -/
abbrev Headers : Type := List (String × String)

/-- The default header set of `apiRequest` in the custom-commands file. -/
def defaultHeaders : Headers :=
  [("Content-Type", "application/json"),
   ("Accept", "application/json"),
   ("User-Agent", "Cypress-Test-Runner")]

/-- The caller-supplied options bag of `apiRequest` (the fields the suite
uses: `body`, `headers`, `failOnStatusCode`); `none` is an absent key. -/
structure ApiOptions where
  body : Option JObj := none
  headers : Option Headers := none
  failOnStatusCode : Option Bool := none
deriving Repr, DecidableEq

/-- The request options handed to `cy.request` by `apiRequest`. -/
structure RequestOptions where
  method : String
  url : String
  headers : Headers
  failOnStatusCode : Bool
  body : Option JObj
deriving Repr, DecidableEq

/-- The `requestOptions` object built inside `apiRequest`: it is the literal
with `method`, `url`, the merged headers and `failOnStatusCode: false`,
followed by the spread `...options`, so every field present in `options`
overrides the field computed before it (for `headers`, the merged header set
is replaced by the caller's own `options.headers` object whenever that key is
present). -/
def buildRequestOptions (apiBaseUrl method endpoint : String)
    (options : ApiOptions) : RequestOptions :=
  let url := apiBaseUrl ++ endpoint
  let merged : Headers := defaultHeaders ++ options.headers.getD []
  { method := method.toUpper
    url := url
    headers :=
      match options.headers with
      | some h => h
      | none => merged
    failOnStatusCode := options.failOnStatusCode.getD false
    body := options.body }

/-- A transport-level failure of the underlying request machinery. -/
inductive TransportError where
  | dnsFailure
  | connectionRefused
  | timeout
deriving Repr, DecidableEq

/-- What can make a `cy.request`-based command fail the surrounding test: a
transport-level failure, or a non-2xx/3xx status while `failOnStatusCode`
is on. -/
inductive CyError where
  | transport (e : TransportError)
  | statusFailure (status : Int)
deriving Repr, DecidableEq

/-- The captured result of one HTTP call: status code, headers and body
(the ProbeResult of the design). -/
structure HttpResponse where
  status : Int
  headers : Headers
  body : JObj
deriving Repr, DecidableEq

/-- The semantics of `cy.request`: a transport failure propagates; otherwise
the response is returned, except that with `failOnStatusCode` on, a status
outside the 2xx/3xx range fails the command. -/
def cyRequest (transport : RequestOptions → Except TransportError HttpResponse)
    (ro : RequestOptions) : Except CyError HttpResponse :=
  match transport ro with
  | .error e => .error (.transport e)
  | .ok resp =>
    if ro.failOnStatusCode ∧ ¬(200 ≤ resp.status ∧ resp.status < 400) then
      .error (.statusFailure resp.status)
    else .ok resp

/-- The custom command `apiRequest(method, endpoint, options)`: builds the
request options (default headers, `failOnStatusCode: false`, then the
caller's overrides) and issues the request; the logging it also performs has
no effect on the returned value. -/
def apiRequest (transport : RequestOptions → Except TransportError HttpResponse)
    (apiBaseUrl method endpoint : String) (options : ApiOptions) :
    Except CyError HttpResponse :=
  cyRequest transport (buildRequestOptions apiBaseUrl method endpoint options)

/-- An assertion failure raised by `validateResponseSchema`, carrying the
literal expected-vs-actual values or the name of the offending field. -/
inductive ValError where
  | statusMismatch (expected actual : Int)
  | missingProperty (name : String)
  | missingField (name : String)
  | nullField (name : String)
  | undefField (name : String)
deriving Repr, DecidableEq

/-- The `expectedSchema` argument of `validateResponseSchema`: an optional
exact status, the key list of the optional `properties` object, and an
optional `requiredFields` array. -/
structure ExpectedSchema where
  status : Option Int := none
  properties : Option (List String) := none
  requiredFields : Option (List String) := none
deriving Repr, DecidableEq

/-- The status assertion of `validateResponseSchema`: run only when
`expectedSchema.status` is present and truthy (a JS number is falsy exactly
when it is zero). -/
def checkStatus (r : HttpResponse) (s : ExpectedSchema) : Except ValError Unit :=
  match s.status with
  | none => .ok ()
  | some st =>
    if st = 0 then .ok ()
    else if r.status = st then .ok ()
    else .error (.statusMismatch st r.status)

/-- The `properties` loop of `validateResponseSchema`: Chai's plain
`property` assertion, which accepts both own and inherited properties (an
`in`-style test), so only a name absent from the whole prototype chain
raises. -/
def checkProps (body : JObj) : List String → Except ValError Unit
  | [] => .ok ()
  | p :: rest =>
    match jsRead body p with
    | .own _ => checkProps body rest
    | .inherited _ => checkProps body rest
    | .absent => .error (.missingProperty p)

/-- The `requiredFields` loop of `validateResponseSchema`: the same
own-or-inherited `property` assertion, then the not-null and not-undefined
assertions on the bracket read of the field (an inherited
`Object.prototype` member is a native function, neither null nor
undefined, so it passes them); the first unmet condition raises. -/
def checkRequired (body : JObj) : List String → Except ValError Unit
  | [] => .ok ()
  | f :: rest =>
    match jsRead body f with
    | .absent => .error (.missingField f)
    | .inherited _ => checkRequired body rest
    | .own v =>
      if v = .pnull then .error (.nullField f)
      else if v = .pundef then .error (.undefField f)
      else checkRequired body rest

/-- Sequencing of two assertion blocks: the first raised error wins. -/
def seqV (x y : Except ValError Unit) : Except ValError Unit :=
  match x with
  | .error e => .error e
  | .ok _ => y

/-- A guarded assertion block: run only when the schema key is present
(`if (expectedSchema.x)` on an array or object key, which is always truthy
when present). -/
def optCheck (o : Option (List String))
    (f : List String → Except ValError Unit) : Except ValError Unit :=
  match o with
  | some xs => f xs
  | none => .ok ()

/-- The custom command `validateResponseSchema(response, expectedSchema)`:
the `status`/`body` presence assertions always hold for a captured response
(the response value always carries both), then the status equality, the
`properties` presence loop and the `requiredFields` loop run in order, and
the first unmet condition raises. -/
def validateResponseSchema (r : HttpResponse) (s : ExpectedSchema) :
    Except ValError Unit :=
  seqV (checkStatus r s)
    (seqV (optCheck s.properties (checkProps r.body))
      (optCheck s.requiredFields (checkRequired r.body)))

/-- A sequenced pair of blocks passes exactly when both pass. -/
theorem seqV_ok_iff (x y : Except ValError Unit) :
    seqV x y = .ok () ↔ x = .ok () ∧ y = .ok () := by
  cases x with
  | error e => simp [seqV]
  | ok u => cases u; simp [seqV]

/-- A guarded block passes exactly when the block passes whenever the key is
present. -/
theorem optCheck_ok_iff (o : Option (List String))
    (f : List String → Except ValError Unit) :
    optCheck o f = .ok () ↔ ∀ xs, o = some xs → f xs = .ok () := by
  cases o with
  | none => simp [optCheck]
  | some xs => simp [optCheck]

/-- Decimal rendering of a JS number that holds a natural number, as a
template literal interpolates it: the usual base-10 numeral. -/
def jsNatRepr (n : Nat) : String :=
  if n = 0 then "0"
  else String.mk (((Nat.digits 10 n).map Nat.digitChar).reverse)

/-- Mapping `Nat.digitChar` over base-10 digit lists is injective. -/
theorem digitChar_map_inj : ∀ l1 l2 : List Nat, (∀ x ∈ l1, x < 10) →
    (∀ x ∈ l2, x < 10) → l1.map Nat.digitChar = l2.map Nat.digitChar → l1 = l2 := by
  intro l1
  induction l1 with
  | nil =>
    intro l2 _ _ h
    cases l2 with
    | nil => rfl
    | cons b bs => simp at h
  | cons a as ih =>
    intro l2 h1 h2 h
    cases l2 with
    | nil => simp at h
    | cons b bs =>
      simp only [List.map_cons, List.cons.injEq] at h
      have ha : a < 10 := h1 a (List.mem_cons_self a as)
      have hb : b < 10 := h2 b (List.mem_cons_self b bs)
      have hd : ∀ x < 10, ∀ y < 10, Nat.digitChar x = Nat.digitChar y → x = y := by
        decide
      exact List.cons_eq_cons.mpr ⟨hd a ha b hb h.1,
        ih bs (fun x hx => h1 x (List.mem_cons_of_mem a hx))
          (fun x hx => h2 x (List.mem_cons_of_mem b hx)) h.2⟩

/-- The digit characters of a positive number never spell the single digit
zero. -/
theorem digits_map_ne_zero_char (n : Nat) (hn : n ≠ 0) :
    (Nat.digits 10 n).map Nat.digitChar ≠ ['0'] := by
  intro h
  have h0 : (['0'] : List Char) = ([0] : List Nat).map Nat.digitChar := by decide
  have hlist : Nat.digits 10 n = [0] :=
    digitChar_map_inj (Nat.digits 10 n) [0]
      (fun x hx => Nat.digits_lt_base (by norm_num) hx) (by decide) (h.trans h0)
  have hofd := Nat.ofDigits_digits 10 n
  rw [hlist] at hofd
  simp [Nat.ofDigits] at hofd
  exact hn hofd.symm

/-- The decimal rendering of distinct natural numbers is distinct. -/
theorem jsNatRepr_inj {m n : Nat} (h : jsNatRepr m = jsNatRepr n) : m = n := by
  unfold jsNatRepr at h
  have hdata := congrArg String.data h
  by_cases hm : m = 0 <;> by_cases hn : n = 0
  · exact hm.trans hn.symm
  · exfalso
    simp only [hm, if_true, hn, if_false] at hdata
    have h2 : (Nat.digits 10 n).map Nat.digitChar = ['0'] := by
      have := congrArg List.reverse hdata
      simp only [List.reverse_reverse] at this
      simpa using this.symm
    exact digits_map_ne_zero_char n hn h2
  · exfalso
    simp only [hm, if_false, hn, if_true] at hdata
    have h2 : (Nat.digits 10 m).map Nat.digitChar = ['0'] := by
      have := congrArg List.reverse hdata
      simp only [List.reverse_reverse] at this
      simpa using this
    exact digits_map_ne_zero_char m hm h2
  · simp only [hm, if_false, hn, if_false] at hdata
    have hrev : (Nat.digits 10 m).map Nat.digitChar = (Nat.digits 10 n).map Nat.digitChar := by
      have := congrArg List.reverse hdata
      simpa using this
    exact Nat.digits_inj_iff.mp (digitChar_map_inj _ _
      (fun x hx => Nat.digits_lt_base (by norm_num) hx)
      (fun x hx => Nat.digits_lt_base (by norm_num) hx) hrev)

/-- JS `String.prototype.includes`: the pattern occurs contiguously in the
string. -/
def jsIncludes (s pat : String) : Bool := decide (pat.toList <:+: s.toList)

/-- The wall clock as `testRateLimit` observes it: the value of `Date.now()`
at each loop iteration. -/
structure RateLimitEnv where
  now : Nat → Nat

/-- The unique per-iteration user payload `testRateLimit` synthesizes for a
POST against a user-creation endpoint. -/
def rateLimitUserData (ts i : Nat) : JObj :=
  [("userName", .pstr ("rateLimit_" ++ jsNatRepr ts ++ "_" ++ jsNatRepr i)),
   ("password", .pstr ("RateTest" ++ jsNatRepr i ++ "123!"))]

/-- One loop iteration of `testRateLimit`: a POST against an endpoint whose
path mentions `/user` gets a fresh synthesized body; any other call is a
plain request with no options. -/
def rateLimitCall (transport : RequestOptions → Except TransportError HttpResponse)
    (apiBaseUrl endpoint method : String) (env : RateLimitEnv) (i : Nat) :
    Except CyError HttpResponse :=
  if method == "POST" && jsIncludes endpoint "/user" then
    apiRequest transport apiBaseUrl "POST" endpoint
      { body := some (rateLimitUserData (env.now i) i) }
  else
    apiRequest transport apiBaseUrl method endpoint {}

/-- The sequential command chain of `testRateLimit`: requests run in call
order, each response is pushed onto the collected list, and a failing
command aborts the chain. -/
def testRateLimitGo (transport : RequestOptions → Except TransportError HttpResponse)
    (apiBaseUrl endpoint method : String) (env : RateLimitEnv) :
    List Nat → Except CyError (List HttpResponse)
  | [] => .ok []
  | i :: rest =>
    match rateLimitCall transport apiBaseUrl endpoint method env i with
    | .error e => .error e
    | .ok r =>
      match testRateLimitGo transport apiBaseUrl endpoint method env rest with
      | .error e => .error e
      | .ok rs => .ok (r :: rs)

/-- The custom command `testRateLimit(endpoint, requestCount, timeWindow,
method)`: issues `requestCount` requests in order and returns the collected
responses unchanged (the 429/503 filter in the source feeds only a log line,
never the returned value; `timeWindow` is informational and unused). -/
def testRateLimit (transport : RequestOptions → Except TransportError HttpResponse)
    (apiBaseUrl endpoint : String) (requestCount : Nat) (timeWindow : Nat)
    (method : String) (env : RateLimitEnv) : Except CyError (List HttpResponse) :=
  testRateLimitGo transport apiBaseUrl endpoint method env (List.range requestCount)

/-- The request options each `testRateLimit` iteration hands to the
transport, written out for the collection theorem. -/
def rateLimitRequestOptions (apiBaseUrl endpoint method : String)
    (env : RateLimitEnv) (i : Nat) : RequestOptions :=
  if method == "POST" && jsIncludes endpoint "/user" then
    buildRequestOptions apiBaseUrl "POST" endpoint
      { body := some (rateLimitUserData (env.now i) i) }
  else
    buildRequestOptions apiBaseUrl method endpoint {}

/-- The randomness and clock observed by one call of the test-data
generator `generateUniqueEmail`: the rendered `Date.now()` timestamp and
the random alphanumeric tail. -/
structure EmailEnv where
  timestamp : String
  randomString : String
deriving Repr, DecidableEq

/-- What the JS runtime guarantees about an `EmailEnv`: `Date.now()` renders
to a nonempty string of decimal digits (the random tail, a substring of a
base-36 fraction, never contains a separator, which already follows from the
digits alone and is not needed). -/
def validEmailEnv (env : EmailEnv) : Prop :=
  env.timestamp ≠ "" ∧ ∀ c ∈ env.timestamp.data, c.isDigit

instance (env : EmailEnv) : Decidable (validEmailEnv env) := by
  unfold validEmailEnv; infer_instance

/-- The generator `generateUniqueEmail(prefix, domain)`. -/
def generateUniqueEmail (pfx domain : String) (env : EmailEnv) : String :=
  pfx ++ "+" ++ env.timestamp ++ "+" ++ env.randomString ++ "@" ++ domain

/-- The randomness and clock observed by one call of
`generateSecurePassword`: the last four digit characters of `Date.now()`,
the two-character random tail, and the digit drawn at each padding
iteration. -/
structure PasswordEnv where
  tsDigits : List Char
  randomSuffix : List Char
  padDigit : Nat → Fin 10

/-- What the JS runtime guarantees about a `PasswordEnv`: the timestamp
slice is four digit characters and the random tail holds at most two
characters. -/
def validPasswordEnv (env : PasswordEnv) : Prop :=
  env.tsDigits.length = 4 ∧ (∀ c ∈ env.tsDigits, c.isDigit) ∧
    env.randomSuffix.length ≤ 2

/-- One pass of the password padding loop body appends `'a' + digit + '!'`. -/
def padUnit (d : Fin 10) : List Char := ['a', Nat.digitChar d.val, '!']

/-- The `while (password.length < Math.max(8, length))` padding loop,
written with explicit fuel: `none` means the loop would still be running
when the fuel is spent (the termination theorem shows fuel equal to the
target length always suffices). -/
def padLoopFuel (padDigit : Nat → Fin 10) :
    Nat → Nat → Nat → List Char → Option (List Char)
  | 0, target, _, pw => if pw.length < target then none else some pw
  | fuel + 1, target, k, pw =>
    if pw.length < target then
      padLoopFuel padDigit fuel target (k + 1) (pw ++ padUnit (padDigit k))
    else some pw

/-- The generator `generateSecurePassword(length, options)`: the seed
`'Test' + timestamp + '!' + randomSuffix`, the padding loop up to
`Math.max(8, length)`, then truncation to `length` only when the result is
too long and `length > 8`. The `options` parameter is never read. -/
def generateSecurePassword (length : Int) (options : JObj) (env : PasswordEnv) :
    Option (List Char) :=
  let password := ("Test").data ++ env.tsDigits ++ ['!'] ++ env.randomSuffix
  let target := (max 8 length).toNat
  match padLoopFuel env.padDigit target target 0 password with
  | none => none
  | some padded =>
    some (if (padded.length : Int) > length ∧ length > 8 then
            padded.take length.toNat
          else padded)

/-- The fixed vocabularies of `generateCompanyName`. -/
def companyPrefixes : List String :=
  ["Tech", "Global", "Digital", "Smart", "Innovation", "Future", "Advanced"]

/-- The fixed second vocabulary of `generateCompanyName`. -/
def companySuffixes : List String :=
  ["Solutions", "Systems", "Corp", "Ltd", "Inc", "Technologies", "Enterprises"]

/-- The generator `generateCompanyName()`: a random draw from each of the two
seven-element vocabularies (`Math.floor(Math.random() * 7)` always lands in
`0..6`, which the index type records). -/
def generateCompanyName (i j : Fin 7) : String :=
  companyPrefixes.get (Fin.cast (by decide) i) ++ " " ++
    companySuffixes.get (Fin.cast (by decide) j)

/-- The random draws observed by one call of `generatePhoneNumber`, with the
ranges `Math.floor(Math.random() * k) + c` produces. -/
structure PhoneEnv where
  us1 : Fin 900
  us2 : Fin 900
  us3 : Fin 9000
  uk1 : Fin 9000
  uk2 : Fin 900000
  other1 : Fin 900
  other2 : Fin 9000

/-- The generator `generatePhoneNumber(format)`: a switch over the format
string with a US, a UK and a default arm. -/
def generatePhoneNumber (format : String) (env : PhoneEnv) : String :=
  if format = "US" then
    "+1-" ++ jsNatRepr (env.us1.val + 100) ++ "-" ++
      jsNatRepr (env.us2.val + 100) ++ "-" ++ jsNatRepr (env.us3.val + 1000)
  else if format = "UK" then
    "+44-" ++ jsNatRepr (env.uk1.val + 1000) ++ "-" ++
      jsNatRepr (env.uk2.val + 100000)
  else
    "+1-555-" ++ jsNatRepr (env.other1.val + 100) ++ "-" ++
      jsNatRepr (env.other2.val + 1000)

/-- The user-data value object `generateUserData` returns (`null` is `none`
in the `confirmPassword` field). -/
structure UserData where
  email : String
  password : String
  confirmPassword : Option String
  firstName : String
  lastName : String
  companyName : String
  phone : String
deriving Repr, DecidableEq

/-- The caller-supplied `overrides` object of `generateUserData`: `none` is
an absent key, and a present key carries the value the spread will write. -/
structure Overrides where
  email : Option String := none
  password : Option String := none
  confirmPassword : Option (Option String) := none
  firstName : Option String := none
  lastName : Option String := none
  companyName : Option String := none
  phone : Option String := none
deriving Repr, DecidableEq

/-- JS `value || default` for an optional string: an absent key and the
empty string are falsy. -/
def jsOrString (v : Option String) (d : String) : String :=
  match v with
  | none => d
  | some s => if s = "" then d else s

/-- The trailing spread `...overrides` of `generateUserData`: every field
present in the overrides replaces the composed default. -/
def applyOverrides (u : UserData) (ov : Overrides) : UserData :=
  { email := ov.email.getD u.email
    password := ov.password.getD u.password
    confirmPassword := ov.confirmPassword.getD u.confirmPassword
    firstName := ov.firstName.getD u.firstName
    lastName := ov.lastName.getD u.lastName
    companyName := ov.companyName.getD u.companyName
    phone := ov.phone.getD u.phone }

/-- The randomness and clock observed by one call of `generateUserData`,
feeding each generator it composes. -/
structure GenEnv where
  emailEnv : EmailEnv
  pwEnv : PasswordEnv
  companyIdx1 : Fin 7
  companyIdx2 : Fin 7
  phoneEnv : PhoneEnv

/-- The generator `generateUserData(overrides)`: composes the generators
(`confirmPassword` is set to the literal `null`), then spreads the caller's
overrides last. The password generator is run with its default length 12 and
empty options; its padding loop is total (see the termination theorem), so
the `getD` default is never taken. -/
def generateUserData (ov : Overrides) (g : GenEnv) : UserData :=
  let firstName := jsOrString ov.firstName "TestUser"
  let lastName := jsOrString ov.lastName "Automated"
  applyOverrides
    { email := generateUniqueEmail "test" "example.com" g.emailEnv
      password := String.mk ((generateSecurePassword 12 [] g.pwEnv).getD [])
      confirmPassword := none
      firstName := firstName
      lastName := lastName
      companyName := generateCompanyName g.companyIdx1 g.companyIdx2
      phone := generatePhoneNumber "US" g.phoneEnv } ov

/-- The `createMalformedData` template catalog of the `ApiHelpers` class. -/
def malformedTemplates : List (String × JObj) :=
  [("emptyObject", []),
   ("nullValues", [("userName", .pnull), ("password", .pnull)]),
   ("invalidTypes", [("userName", .pnum 12345), ("password", .pbool true)]),
   ("missingUserName", [("password", .pstr "ValidPassword123!")]),
   ("missingPassword", [("userName", .pstr "validUser")]),
   ("emptyStrings", [("userName", .pstr ""), ("password", .pstr "")]),
   ("tooLong", [("userName", .pstr (String.mk (List.replicate 1000 'a'))),
                ("password", .pstr (String.mk (List.replicate 1000 'b')))]),
   ("specialChars",
    [("userName", .pstr "<script>alert(\x22xss\x22)</script>"),
     ("password", .pstr "DROP TABLE users;")])]

/-- What `createMalformedData` can return: one of the catalog's template
objects (or the emptyObject fallback), or — because `templates[type]` is a
bracket read that consults the prototype chain — a truthy inherited
`Object.prototype` member leaked through the `||`. -/
inductive MalformedResult where
  | obj (o : JObj)
  | native (name : String)
deriving Repr, DecidableEq

/-- The helper `createMalformedData(type)`: `templates[type] ||
templates.emptyObject`. An own template object is truthy and is returned; a
tag naming an inherited `Object.prototype` member finds that member, which
is also truthy (a native function, or the prototype object for
`__proto__`) and is returned as-is; only a tag found nowhere on the chain
reads `undefined`, which is falsy and falls back to the empty object. -/
def createMalformedData (type : String) : MalformedResult :=
  match jsRead malformedTemplates type with
  | .own t => .obj t
  | .inherited name => .native name
  | .absent => .obj []

/-- A transport that always answers with the one given response. -/
def probeTransport (resp : HttpResponse) :
    RequestOptions → Except TransportError HttpResponse :=
  fun _ => .ok resp

/-- A 404 response with empty headers and body. -/
def resp404 : HttpResponse := { status := 404, headers := [], body := [] }

/-- A 500 response with empty headers and body. -/
def resp500 : HttpResponse := { status := 500, headers := [], body := [] }

/-- C1: evaluation at the failing input `apiRequest("GET", "/x",
\x7bheaders: \x7b"X-Custom": "1"\x7d\x7d)`. The source first computes the
merge `\x7b...defaultHeaders, ...options.headers\x7d`, but the trailing
spread `...options` then overwrites the whole `headers` field with the
caller's object, so when the caller supplies any headers the issued request
carries none of the non-conflicting default headers — against the spec and
against the merge the line above visibly intends. With no caller headers the
defaults do survive (third to fifth conjuncts). -/
theorem buildRequestOptions_drops_defaults :
    jsGet (buildRequestOptions "https://demoqa.com" "GET" "/x"
      { headers := some [("X-Custom", "1")] }).headers "Content-Type" = none
  ∧ jsGet (buildRequestOptions "https://demoqa.com" "GET" "/x"
      { headers := some [("X-Custom", "1")] }).headers "X-Custom" = some "1"
  ∧ jsGet (buildRequestOptions "https://demoqa.com" "GET" "/x"
      ({} : ApiOptions)).headers "Content-Type" = some "application/json"
  ∧ jsGet (buildRequestOptions "https://demoqa.com" "GET" "/x"
      ({} : ApiOptions)).headers "Accept" = some "application/json"
  ∧ jsGet (buildRequestOptions "https://demoqa.com" "GET" "/x"
      ({} : ApiOptions)).headers "User-Agent" = some "Cypress-Test-Runner" := by
  decide

/-- C2 counterexample: the claim quantifies over every options bag, but the
trailing spread `...options` also lets a caller override
`failOnStatusCode`; with `\x7bfailOnStatusCode: true\x7d` a 404 response
makes `apiRequest` fail the test rather than return the response. -/
theorem apiRequest_raises_with_failOnStatusCode_override :
    apiRequest (probeTransport resp404) "https://demoqa.com" "GET"
      "/account/v1/user" { failOnStatusCode := some true }
      = .error (.statusFailure 404) := rfl

/-- C2 amended: for every options bag that does not override
`failOnStatusCode` to `true`, `apiRequest` returns the transport's response
whatever its status code (any 4xx or 5xx included), and raises exactly on a
transport-level failure, which propagates unchanged. -/
theorem apiRequest_no_raise_without_override
    (transport : RequestOptions → Except TransportError HttpResponse)
    (apiBaseUrl method endpoint : String) (options : ApiOptions)
    (h : options.failOnStatusCode ≠ some true) :
    (∀ resp,
        transport (buildRequestOptions apiBaseUrl method endpoint options) = .ok resp →
        apiRequest transport apiBaseUrl method endpoint options = .ok resp)
  ∧ (∀ e,
        transport (buildRequestOptions apiBaseUrl method endpoint options) = .error e →
        apiRequest transport apiBaseUrl method endpoint options
          = .error (.transport e)) := by
  have hf : (buildRequestOptions apiBaseUrl method endpoint options).failOnStatusCode
      = false := by
    show options.failOnStatusCode.getD false = false
    cases hfo : options.failOnStatusCode with
    | none => rfl
    | some b =>
      cases b with
      | false => rfl
      | true => exact absurd hfo h
  constructor
  · intro resp hok
    unfold apiRequest cyRequest
    rw [hok, hf]
    simp
  · intro e he
    unfold apiRequest cyRequest
    rw [he]

/-- C2 witness: with no override, a transport answering 500 yields the 500
response as a value, with no raise. -/
theorem apiRequest_no_raise_witness :
    apiRequest (probeTransport resp500) "https://demoqa.com" "GET"
      "/account/v1/user" ({} : ApiOptions) = .ok resp500 :=
  (apiRequest_no_raise_without_override (probeTransport resp500)
    "https://demoqa.com" "GET" "/account/v1/user" {} (by decide)).1 resp500 rfl

/-- C4 counterexample: the tag `toString` is none of the catalog's defined
payload-type tags, yet the lookup does not return the emptyObject template:
the bracket read `templates["toString"]` finds the truthy inherited
`Object.prototype.toString` and the `||` returns it as-is. -/
theorem createMalformedData_prototype_leak :
    ("toString" ∉ malformedTemplates.map Prod.fst)
  ∧ createMalformedData "toString" = .native "toString"
  ∧ createMalformedData "toString" ≠ .obj [] := by
  exact ⟨by decide, by decide, by decide⟩

/-- C4 amended: a tag that is neither a catalog key nor the name of an
inherited `Object.prototype` member falls back to the empty object; a tag
naming an `Object.prototype` member leaks that truthy inherited value
instead of falling back; the `missingPassword` tag returns exactly the
documented template, which carries no `password` key. -/
theorem createMalformedData_spec :
    (∀ type : String, (∀ p ∈ malformedTemplates, p.1 ≠ type) →
        type ∉ objectPrototypeKeys → createMalformedData type = .obj [])
  ∧ (∀ type : String, (∀ p ∈ malformedTemplates, p.1 ≠ type) →
        type ∈ objectPrototypeKeys → createMalformedData type = .native type)
  ∧ createMalformedData "missingPassword"
      = .obj [("userName", JPrim.pstr "validUser")]
  ∧ jsGet [("userName", JPrim.pstr "validUser")] "password" = none := by
  refine ⟨?_, ?_, by decide, by decide⟩
  · intro type h hn
    unfold createMalformedData jsRead
    rw [(jsGet_eq_none_iff malformedTemplates type).mpr h]
    simp [hn]
  · intro type h hi
    unfold createMalformedData jsRead
    rw [(jsGet_eq_none_iff malformedTemplates type).mpr h]
    simp [hi]

/-- C10: `generateSecurePassword` never reads its `options` parameter: with
the same length, clock and randomness, any two options values give the same
computation and the same output. -/
theorem generateSecurePassword_ignores_options (length : Int) (o1 o2 : JObj)
    (env : PasswordEnv) :
    generateSecurePassword length o1 env = generateSecurePassword length o2 env := rfl

/-- The status assertion passes exactly when a present, truthy expected
status equals the response status. -/
theorem checkStatus_ok_iff (r : HttpResponse) (s : ExpectedSchema) :
    checkStatus r s = .ok () ↔ ∀ st, s.status = some st → st ≠ 0 → r.status = st := by
  cases hs : s.status with
  | none => simp [checkStatus, hs]
  | some st =>
    by_cases h0 : st = 0
    · simp [checkStatus, hs, h0]
    · by_cases he : r.status = st
      · simp [checkStatus, hs, h0, he]
      · simp [checkStatus, hs, h0, he]

/-- The properties loop passes exactly when every named property is present
on the body, own or inherited. -/
theorem checkProps_ok_iff (body : JObj) (ps : List String) :
    checkProps body ps = .ok () ↔ ∀ p ∈ ps, jsRead body p ≠ PropRead.absent := by
  induction ps with
  | nil => simp [checkProps]
  | cons p rest ih =>
    cases hv : jsRead body p with
    | absent => simp [checkProps, hv]
    | own v => simp [checkProps, hv, ih]
    | inherited name => simp [checkProps, hv, ih]

/-- The required-fields loop passes exactly when every field is present
(own or inherited) and, when it is an own binding, its value is neither
null nor undefined (an inherited member is a native function and passes
those assertions). -/
theorem checkRequired_ok_iff (body : JObj) (fs : List String) :
    checkRequired body fs = .ok () ↔
      ∀ f ∈ fs, jsRead body f ≠ PropRead.absent ∧
        ∀ v, jsRead body f = .own v → v ≠ JPrim.pnull ∧ v ≠ JPrim.pundef := by
  induction fs with
  | nil => simp [checkRequired]
  | cons f rest ih =>
    cases hv : jsRead body f with
    | absent => simp [checkRequired, hv]
    | inherited name => simp [checkRequired, hv, ih]
    | own v =>
      by_cases h1 : v = JPrim.pnull
      · simp [checkRequired, hv, h1]
      · by_cases h2 : v = JPrim.pundef
        · simp [checkRequired, hv, h1, h2]
        · simp [checkRequired, hv, h1, h2, ih]

/-- C7: the two concrete scenarios of the spec — schema
`\x7bstatus: 201, requiredFields: ["id"]\x7d` passes on a 201 response with
body `\x7bid: "abc"\x7d` and raises naming the missing `id` field on body
`\x7b\x7d` — and in general the validator succeeds exactly when the status
matches (when expected and truthy), every named property is present on the
body (own or inherited: Chai's plain `property` assertion also finds
inherited `Object.prototype` members, so such a name is never absent) and
every required field is present with a value that is neither null nor
undefined (an own binding must not be null or undefined; an inherited
member is a native function and always passes); its sequential definition
raises at the first unmet condition. -/
theorem validateResponseSchema_spec :
    validateResponseSchema
        { status := 201, headers := [], body := [("id", JPrim.pstr "abc")] }
        { status := some 201, requiredFields := some ["id"] } = .ok ()
  ∧ validateResponseSchema { status := 201, headers := [], body := [] }
        { status := some 201, requiredFields := some ["id"] }
        = .error (.missingField "id")
  ∧ ∀ (r : HttpResponse) (s : ExpectedSchema),
      validateResponseSchema r s = .ok () ↔
        ((∀ st, s.status = some st → st ≠ 0 → r.status = st)
         ∧ (∀ ps, s.properties = some ps →
              ∀ p ∈ ps, jsRead r.body p ≠ PropRead.absent)
         ∧ (∀ fs, s.requiredFields = some fs →
              ∀ f ∈ fs, jsRead r.body f ≠ PropRead.absent ∧
                ∀ v, jsRead r.body f = .own v →
                  v ≠ JPrim.pnull ∧ v ≠ JPrim.pundef)) := by
  refine ⟨rfl, rfl, ?_⟩
  intro r s
  unfold validateResponseSchema
  rw [seqV_ok_iff, seqV_ok_iff, checkStatus_ok_iff, optCheck_ok_iff, optCheck_ok_iff]
  refine and_congr_right fun _ => and_congr ?_ ?_
  · exact forall_congr' fun ps => imp_congr_right fun _ => checkProps_ok_iff r.body ps
  · exact forall_congr' fun fs => imp_congr_right fun _ => checkRequired_ok_iff r.body fs

/-- With `failOnStatusCode` off, a successful transport response of any
status is returned unchanged. -/
theorem cyRequest_ok_of_noFail (f : RequestOptions → HttpResponse)
    (ro : RequestOptions) (h : ro.failOnStatusCode = false) :
    cyRequest (fun r => .ok (f r)) ro = .ok (f ro) := by
  simp [cyRequest, h]

/-- An `apiRequest` whose options do not touch `failOnStatusCode` returns
whatever response the transport produces. -/
theorem apiRequest_ok_of_noFail (f : RequestOptions → HttpResponse)
    (apiBaseUrl method endpoint : String) (options : ApiOptions)
    (h : options.failOnStatusCode = none) :
    apiRequest (fun ro => .ok (f ro)) apiBaseUrl method endpoint options
      = .ok (f (buildRequestOptions apiBaseUrl method endpoint options)) := by
  unfold apiRequest
  refine cyRequest_ok_of_noFail f _ ?_
  show options.failOnStatusCode.getD false = false
  rw [h]
  rfl

/-- One `testRateLimit` iteration against a successful transport yields the
response to exactly the request options of that iteration. -/
theorem rateLimitCall_ok (f : RequestOptions → HttpResponse)
    (apiBaseUrl endpoint method : String) (env : RateLimitEnv) (i : Nat) :
    rateLimitCall (fun ro => .ok (f ro)) apiBaseUrl endpoint method env i
      = .ok (f (rateLimitRequestOptions apiBaseUrl endpoint method env i)) := by
  unfold rateLimitCall rateLimitRequestOptions
  cases hb : method == "POST" && jsIncludes endpoint "/user" with
  | false =>
    simp only [hb, Bool.false_eq_true, if_false]
    exact apiRequest_ok_of_noFail f _ _ _ _ rfl
  | true =>
    simp only [hb, if_true]
    exact apiRequest_ok_of_noFail f _ _ _ _ rfl

/-- The sequential command chain collects, in call order, the response of
every iteration. -/
theorem testRateLimitGo_ok (f : RequestOptions → HttpResponse)
    (apiBaseUrl endpoint method : String) (env : RateLimitEnv) :
    ∀ is : List Nat,
      testRateLimitGo (fun ro => .ok (f ro)) apiBaseUrl endpoint method env is
        = .ok (is.map fun i =>
            f (rateLimitRequestOptions apiBaseUrl endpoint method env i)) := by
  intro is
  induction is with
  | nil => rfl
  | cons i rest ih =>
    unfold testRateLimitGo
    rw [rateLimitCall_ok, ih]
    rfl

/-- C6: against a transport that answers every request (with any status
code), `testRateLimit` returns exactly the per-iteration responses, in call
order and with nothing filtered out or aggregated (the returned value is
the plain map over the iteration sequence; each element carries the integer
status code of its response), and the user payloads synthesized for a POST
against a user-creation endpoint are pairwise distinct across iterations. -/
theorem testRateLimit_spec (f : RequestOptions → HttpResponse)
    (apiBaseUrl endpoint method : String) (n timeWindow : Nat)
    (env : RateLimitEnv) :
    (testRateLimit (fun ro => .ok (f ro)) apiBaseUrl endpoint n timeWindow method env
        = .ok ((List.range n).map fun i =>
            f (rateLimitRequestOptions apiBaseUrl endpoint method env i)))
  ∧ ((List.range n).map fun i =>
        f (rateLimitRequestOptions apiBaseUrl endpoint method env i)).length = n
  ∧ ∀ i j : Nat, i ≠ j →
      rateLimitUserData (env.now i) i ≠ rateLimitUserData (env.now j) j := by
  refine ⟨testRateLimitGo_ok f apiBaseUrl endpoint method env (List.range n),
    by simp, ?_⟩
  intro i j hij heq
  apply hij
  simp only [rateLimitUserData, List.cons.injEq, Prod.mk.injEq, JPrim.pstr.injEq,
    and_true, true_and] at heq
  have hpw : "RateTest" ++ jsNatRepr i ++ "123!" = "RateTest" ++ jsNatRepr j ++ "123!" :=
    heq.2
  have hd := congrArg String.data hpw
  simp only [String.data_append, List.append_assoc] at hd
  have h3 := List.append_cancel_left hd
  have h4 := List.append_cancel_right h3
  exact jsNatRepr_inj (String.ext h4)

/-- Splitting a character list at a separator that occurs in neither left
part is unambiguous. -/
theorem sep_split : ∀ t1 t2 r1 r2 : List Char, (∀ c ∈ t1, c ≠ '+') →
    (∀ c ∈ t2, c ≠ '+') → t1 ++ '+' :: r1 = t2 ++ '+' :: r2 →
    t1 = t2 ∧ r1 = r2 := by
  intro t1
  induction t1 with
  | nil =>
    intro t2 r1 r2 _ h2 h
    cases t2 with
    | nil =>
      simp only [List.nil_append] at h
      exact ⟨rfl, (List.cons_eq_cons.mp h).2⟩
    | cons c cs =>
      simp only [List.nil_append, List.cons_append] at h
      have hc := (List.cons_eq_cons.mp h).1
      exact absurd hc.symm (h2 c (List.mem_cons_self c cs))
  | cons a as ih =>
    intro t2 r1 r2 h1 h2 h
    cases t2 with
    | nil =>
      simp only [List.cons_append, List.nil_append] at h
      have hc := (List.cons_eq_cons.mp h).1
      exact absurd hc (h1 a (List.mem_cons_self a as))
    | cons b bs =>
      simp only [List.cons_append] at h
      obtain ⟨hab, htl⟩ := List.cons_eq_cons.mp h
      obtain ⟨hts, hrs⟩ := ih bs r1 r2
        (fun c hc => h1 c (List.mem_cons_of_mem a hc))
        (fun c hc => h2 c (List.mem_cons_of_mem b hc)) htl
      exact ⟨List.cons_eq_cons.mpr ⟨hab, hts⟩, hrs⟩

/-- C8 amended: two calls of `generateUniqueEmail` (same prefix and domain)
whose observed `(timestamp, random tail)` pairs differ return distinct
strings; uniqueness is only as strong as these observations, so it is
practical rather than unconditional. -/
theorem generateUniqueEmail_inj (pfx domain : String) (e1 e2 : EmailEnv)
    (h1 : ∀ c ∈ e1.timestamp.data, c.isDigit)
    (h2 : ∀ c ∈ e2.timestamp.data, c.isDigit)
    (hne : (e1.timestamp, e1.randomString) ≠ (e2.timestamp, e2.randomString)) :
    generateUniqueEmail pfx domain e1 ≠ generateUniqueEmail pfx domain e2 := by
  intro h
  apply hne
  have hplus : ("+" : String).data = ['+'] := rfl
  have hat : ("@" : String).data = ['@'] := rfl
  have hd := congrArg String.data h
  unfold generateUniqueEmail at hd
  simp only [String.data_append, hplus, hat, List.append_assoc,
    List.singleton_append, List.cons_append] at hd
  have hd2 := List.append_cancel_left hd
  have hd3 := (List.cons_eq_cons.mp hd2).2
  have hdig1 : ∀ c ∈ e1.timestamp.data, c ≠ '+' := by
    intro c hc he
    have := h1 c hc
    rw [he] at this
    exact absurd this (by decide)
  have hdig2 : ∀ c ∈ e2.timestamp.data, c ≠ '+' := by
    intro c hc he
    have := h2 c hc
    rw [he] at this
    exact absurd this (by decide)
  obtain ⟨ht, hr⟩ := sep_split _ _ _ _ hdig1 hdig2 hd3
  simp only [List.nil_append] at hr
  have hr2 := List.append_cancel_right hr
  simp only [Prod.mk.injEq]
  exact ⟨String.ext ht, String.ext hr2⟩

/-- C8 counterexample: uniqueness cannot hold for every pair of calls in a
process, because two calls may observe the same millisecond and the same
random draw; the constant observation sequence realizes that and makes two
distinct calls return the same string. -/
theorem generateUniqueEmail_collision :
    ¬ (∀ envs : Nat → EmailEnv, (∀ k, validEmailEnv (envs k)) →
        ∀ i j : Nat, i ≠ j →
          generateUniqueEmail "test" "example.com" (envs i)
            ≠ generateUniqueEmail "test" "example.com" (envs j)) := by
  intro h
  have hv : validEmailEnv ⟨"1700000000000", "k2j4"⟩ := ⟨by decide, by decide⟩
  exact h (fun _ => ⟨"1700000000000", "k2j4"⟩) (fun k => hv) 0 1 (by decide) rfl

/-- C8 witness: two calls differing in their observed timestamp give
distinct email strings. -/
theorem generateUniqueEmail_inj_witness :
    generateUniqueEmail "test" "example.com" ⟨"1700000000001", "ab"⟩
      ≠ generateUniqueEmail "test" "example.com" ⟨"1700000000002", "ab"⟩ :=
  generateUniqueEmail_inj "test" "example.com"
    ⟨"1700000000001", "ab"⟩ ⟨"1700000000002", "ab"⟩
    (by decide) (by decide) (by decide)

/-- The padding loop exits through its own condition whenever the fuel
covers the distance to the target: each pass appends three characters. -/
theorem padLoopFuel_some (pd : Nat → Fin 10) :
    ∀ fuel target k pw, target - pw.length ≤ fuel →
      ∃ r, padLoopFuel pd fuel target k pw = some r := by
  intro fuel
  induction fuel with
  | zero =>
    intro target k pw h
    have hge : ¬ pw.length < target := by omega
    exact ⟨pw, by simp [padLoopFuel, hge]⟩
  | succ f ih =>
    intro target k pw h
    by_cases hlt : pw.length < target
    · have hlen : (pw ++ padUnit (pd k)).length = pw.length + 3 := by
        simp [padUnit]
      obtain ⟨r, hr⟩ := ih target (k + 1) (pw ++ padUnit (pd k)) (by omega)
      exact ⟨r, by simp only [padLoopFuel, hlt, if_true]; exact hr⟩
    · exact ⟨pw, by simp [padLoopFuel, hlt]⟩

/-- A value the padding loop returns is at least as long as the target. -/
theorem padLoopFuel_length (pd : Nat → Fin 10) :
    ∀ fuel target k pw r, padLoopFuel pd fuel target k pw = some r →
      target ≤ r.length := by
  intro fuel
  induction fuel with
  | zero =>
    intro target k pw r h
    by_cases hlt : pw.length < target
    · simp [padLoopFuel, hlt] at h
    · simp [padLoopFuel, hlt] at h
      subst h
      omega
  | succ f ih =>
    intro target k pw r h
    by_cases hlt : pw.length < target
    · simp only [padLoopFuel, hlt, if_true] at h
      exact ih target (k + 1) _ r h
    · simp [padLoopFuel, hlt] at h
      subst h
      omega

/-- The padding loop only appends: its value extends the seed it began
with. -/
theorem padLoopFuel_extends (pd : Nat → Fin 10) :
    ∀ fuel target k pw r, padLoopFuel pd fuel target k pw = some r →
      ∃ t, r = pw ++ t := by
  intro fuel
  induction fuel with
  | zero =>
    intro target k pw r h
    by_cases hlt : pw.length < target
    · simp [padLoopFuel, hlt] at h
    · simp [padLoopFuel, hlt] at h
      exact ⟨[], by rw [h, List.append_nil]⟩
  | succ f ih =>
    intro target k pw r h
    by_cases hlt : pw.length < target
    · simp only [padLoopFuel, hlt, if_true] at h
      obtain ⟨t, ht⟩ := ih target (k + 1) _ r h
      exact ⟨padUnit (pd k) ++ t, by rw [ht, List.append_assoc]⟩
    · simp [padLoopFuel, hlt] at h
      exact ⟨[], by rw [h, List.append_nil]⟩

/-- C3: for every length of at least 8, the generated password carries an
uppercase letter, a lowercase letter, a digit and a non-alphanumeric
character, has length exactly the requested length when that exceeds 8, and
length at least 8 otherwise. -/
theorem generateSecurePassword_policy (L : Int) (options : JObj)
    (env : PasswordEnv) (hv : validPasswordEnv env) (hL : 8 ≤ L) :
    ∃ p, generateSecurePassword L options env = some p
      ∧ (∃ c ∈ p, c.isUpper) ∧ (∃ c ∈ p, c.isLower) ∧ (∃ c ∈ p, c.isDigit)
      ∧ (∃ c ∈ p, ¬ c.isAlphanum)
      ∧ (8 < L → (p.length : Int) = L) ∧ (L ≤ 8 → 8 ≤ p.length) := by
  obtain ⟨hts, htsd, hsfx⟩ := hv
  obtain ⟨padded, hpad⟩ := padLoopFuel_some env.padDigit ((max 8 L).toNat)
    ((max 8 L).toNat) 0 (("Test").data ++ env.tsDigits ++ ['!'] ++ env.randomSuffix)
    (Nat.sub_le _ _)
  have hplen := padLoopFuel_length env.padDigit _ _ _ _ _ hpad
  obtain ⟨t, hext⟩ := padLoopFuel_extends env.padDigit _ _ _ _ _ hpad
  have htarget : (max 8 L).toNat = L.toNat := by omega
  have hfront : padded = (("Test").data ++ env.tsDigits ++ ['!'])
      ++ (env.randomSuffix ++ t) := by
    rw [hext, List.append_assoc]
  have hfrontlen : (("Test").data ++ env.tsDigits ++ ['!']).length = 9 := by
    simp [hts]
  refine ⟨if (padded.length : Int) > L ∧ L > 8 then padded.take L.toNat else padded,
    ?_, ?_⟩
  · simp only [generateSecurePassword]
    rw [hpad]
  · have hfirst : ∀ p2 : List Char,
        (∃ u, p2 = (("Test").data ++ env.tsDigits ++ ['!']) ++ u) →
        (∃ c ∈ p2, c.isUpper) ∧ (∃ c ∈ p2, c.isLower) ∧ (∃ c ∈ p2, c.isDigit)
          ∧ (∃ c ∈ p2, ¬ c.isAlphanum) := by
      rintro p2 ⟨u, rfl⟩
      have hT : ('T' : Char) ∈ ("Test").data ++ env.tsDigits ++ ['!'] ++ u :=
        List.mem_append_left _ (List.mem_append_left _
          (List.mem_append_left _ (by decide)))
      have he : ('e' : Char) ∈ ("Test").data ++ env.tsDigits ++ ['!'] ++ u :=
        List.mem_append_left _ (List.mem_append_left _
          (List.mem_append_left _ (by decide)))
      have hbang : ('!' : Char) ∈ ("Test").data ++ env.tsDigits ++ ['!'] ++ u :=
        List.mem_append_left _ (List.mem_append_right _ (by decide))
      have htne : env.tsDigits ≠ [] := by
        intro hnil
        rw [hnil] at hts
        simp at hts
      obtain ⟨d, hdmem⟩ := List.exists_mem_of_ne_nil env.tsDigits htne
      have hd : d ∈ ("Test").data ++ env.tsDigits ++ ['!'] ++ u :=
        List.mem_append_left _ (List.mem_append_left _
          (List.mem_append_right _ hdmem))
      exact ⟨⟨'T', hT, by decide⟩, ⟨'e', he, by decide⟩,
        ⟨d, hd, htsd d hdmem⟩, ⟨'!', hbang, by decide⟩⟩
    by_cases hc : (padded.length : Int) > L ∧ L > 8
    · rw [if_pos hc]
      have h9 : 9 ≤ L.toNat := by omega
      have htake : padded.take L.toNat
          = (("Test").data ++ env.tsDigits ++ ['!'])
            ++ (env.randomSuffix ++ t).take (L.toNat - 9) := by
        rw [hfront, List.take_append_eq_append_take, hfrontlen,
          List.take_of_length_le (by omega)]
      refine ⟨(hfirst _ ⟨_, htake⟩).1, (hfirst _ ⟨_, htake⟩).2.1,
        (hfirst _ ⟨_, htake⟩).2.2.1, (hfirst _ ⟨_, htake⟩).2.2.2, ?_, ?_⟩
      · intro _
        rw [List.length_take]
        omega
      · intro h8
        omega
    · rw [if_neg hc]
      refine ⟨(hfirst _ ⟨_, hfront⟩).1, (hfirst _ ⟨_, hfront⟩).2.1,
        (hfirst _ ⟨_, hfront⟩).2.2.1, (hfirst _ ⟨_, hfront⟩).2.2.2, ?_, ?_⟩
      · intro h8
        omega
      · intro _
        omega

/-- A concrete password environment: timestamp slice 1739, random tail kj,
every padding draw 0. -/
def samplePasswordEnv : PasswordEnv :=
  { tsDigits := ['1', '7', '3', '9'], randomSuffix := ['k', 'j'],
    padDigit := fun _ => 0 }

/-- C3 witness: the policy theorem applied at length 12 and a concrete
environment. -/
theorem generateSecurePassword_policy_witness :
    ∃ p, generateSecurePassword 12 [] samplePasswordEnv = some p
      ∧ (∃ c ∈ p, c.isUpper) ∧ (∃ c ∈ p, c.isLower) ∧ (∃ c ∈ p, c.isDigit)
      ∧ (∃ c ∈ p, ¬ c.isAlphanum)
      ∧ (8 < (12 : Int) → (p.length : Int) = 12) ∧ ((12 : Int) ≤ 8 → 8 ≤ p.length) :=
  generateSecurePassword_policy 12 [] samplePasswordEnv
    ⟨by decide, by decide, by decide⟩ (by decide)

/-- C9: every generator is total. The password padding loop exits within the
modeled fuel for every requested length (negative and small lengths
included) and every environment, and the other generators are straight-line
computations returning a value for every input. -/
theorem generators_total (L : Int) (opts : JObj) (env : PasswordEnv)
    (e : EmailEnv) (pfx domain : String) (i j : Fin 7) (format : String)
    (ph : PhoneEnv) (ov : Overrides) (g : GenEnv) :
    (∃ p, generateSecurePassword L opts env = some p)
  ∧ (∃ s, generateUniqueEmail pfx domain e = s)
  ∧ (∃ s, generateCompanyName i j = s)
  ∧ (∃ s, generatePhoneNumber format ph = s)
  ∧ (∃ u, generateUserData ov g = u) := by
  obtain ⟨padded, hpad⟩ := padLoopFuel_some env.padDigit ((max 8 L).toNat)
    ((max 8 L).toNat) 0 (("Test").data ++ env.tsDigits ++ ['!'] ++ env.randomSuffix)
    (Nat.sub_le _ _)
  constructor
  · simp only [generateSecurePassword]
    rw [hpad]
    exact ⟨_, rfl⟩
  · exact ⟨⟨_, rfl⟩, ⟨_, rfl⟩, ⟨_, rfl⟩, ⟨_, rfl⟩⟩

/-- A generated password is never the empty list: the target of the padding
loop is at least 8, and truncation keeps at least 9 characters. -/
theorem generateSecurePassword_pos (L : Int) (opts : JObj) (env : PasswordEnv)
    (p : List Char) (h : generateSecurePassword L opts env = some p) :
    0 < p.length := by
  simp only [generateSecurePassword] at h
  cases hpad : padLoopFuel env.padDigit ((max 8 L).toNat) ((max 8 L).toNat) 0
      (("Test").data ++ env.tsDigits ++ ['!'] ++ env.randomSuffix) with
  | none => rw [hpad] at h; cases h
  | some padded =>
    rw [hpad] at h
    have hplen := padLoopFuel_length env.padDigit _ _ _ _ _ hpad
    have hp : p = if (padded.length : Int) > L ∧ L > 8 then
        padded.take L.toNat else padded := by
      injection h with h2
      exact h2.symm
    by_cases hc : (padded.length : Int) > L ∧ L > 8
    · rw [hp, if_pos hc, List.length_take]
      omega
    · rw [hp, if_neg hc]
      omega

/-- A nonempty character list never renders to the empty string. -/
theorem stringMk_ne_empty (l : List Char) (h : l ≠ []) : String.mk l ≠ "" := by
  intro he
  exact h (congrArg String.data he)

/-- The generated email is never empty: it begins with the fixed prefix. -/
theorem generateUniqueEmail_ne_empty (e : EmailEnv) :
    generateUniqueEmail "test" "example.com" e ≠ "" := by
  intro h
  have hlen := congrArg String.length h
  simp only [generateUniqueEmail, String.length_append] at hlen
  have h1 : ("test" : String).length = 4 := rfl
  have h2 : ("+" : String).length = 1 := rfl
  have h3 : ("@" : String).length = 1 := rfl
  have h4 : ("example.com" : String).length = 11 := rfl
  have h5 : ("" : String).length = 0 := rfl
  rw [h1, h2, h3, h4, h5] at hlen
  omega

/-- The generated company name is never empty: the two vocabulary picks are
joined by a blank. -/
theorem generateCompanyName_ne_empty (i j : Fin 7) :
    generateCompanyName i j ≠ "" := by
  intro h
  have hlen := congrArg String.length h
  simp only [generateCompanyName, String.length_append] at hlen
  have h1 : (" " : String).length = 1 := rfl
  have h5 : ("" : String).length = 0 := rfl
  rw [h1, h5] at hlen
  omega

/-- The generated US phone number is never empty: it begins with the fixed
country code. -/
theorem generatePhoneNumber_ne_empty (ph : PhoneEnv) :
    generatePhoneNumber "US" ph ≠ "" := by
  intro h
  have hlen := congrArg String.length h
  simp only [generatePhoneNumber, eq_self_iff_true, if_true,
    String.length_append] at hlen
  have h1 : ("+1-" : String).length = 3 := rfl
  have h2 : ("-" : String).length = 1 := rfl
  have h5 : ("" : String).length = 0 := rfl
  rw [h1, h2, h5] at hlen
  omega

/-- C5 amended: every overridden field wins (the spread is applied last),
and for `generateUserData(\x7bfirstName: "John"\x7d)` the other fields are
non-empty defaults with the one exception of `confirmPassword`, which the
source sets to the literal `null`. -/
theorem generateUserData_overrides (ov : Overrides) (g : GenEnv) :
    ((∀ v, ov.email = some v → (generateUserData ov g).email = v)
  ∧ (∀ v, ov.password = some v → (generateUserData ov g).password = v)
  ∧ (∀ v, ov.confirmPassword = some v → (generateUserData ov g).confirmPassword = v)
  ∧ (∀ v, ov.firstName = some v → (generateUserData ov g).firstName = v)
  ∧ (∀ v, ov.lastName = some v → (generateUserData ov g).lastName = v)
  ∧ (∀ v, ov.companyName = some v → (generateUserData ov g).companyName = v)
  ∧ (∀ v, ov.phone = some v → (generateUserData ov g).phone = v))
  ∧ ((generateUserData { firstName := some "John" } g).firstName = "John"
  ∧ (generateUserData { firstName := some "John" } g).confirmPassword = none
  ∧ (generateUserData { firstName := some "John" } g).email ≠ ""
  ∧ (generateUserData { firstName := some "John" } g).password ≠ ""
  ∧ (generateUserData { firstName := some "John" } g).lastName = "Automated"
  ∧ (generateUserData { firstName := some "John" } g).companyName ≠ ""
  ∧ (generateUserData { firstName := some "John" } g).phone ≠ "") := by
  constructor
  · refine ⟨?_, ?_, ?_, ?_, ?_, ?_, ?_⟩ <;>
      (intro v hv; simp [generateUserData, applyOverrides, hv])
  · refine ⟨rfl, rfl, ?_, ?_, rfl, ?_, ?_⟩
    · show generateUniqueEmail "test" "example.com" g.emailEnv ≠ ""
      exact generateUniqueEmail_ne_empty g.emailEnv
    · show String.mk ((generateSecurePassword 12 [] g.pwEnv).getD []) ≠ ""
      obtain ⟨p, hp⟩ := (generators_total 12 [] g.pwEnv g.emailEnv "" "" 0 0 ""
        g.phoneEnv {} g).1
      rw [hp]
      refine stringMk_ne_empty p ?_
      intro hnil
      have := generateSecurePassword_pos 12 [] g.pwEnv p hp
      rw [hnil] at this
      simp at this
    · show generateCompanyName g.companyIdx1 g.companyIdx2 ≠ ""
      exact generateCompanyName_ne_empty _ _
    · show generatePhoneNumber "US" g.phoneEnv ≠ ""
      exact generatePhoneNumber_ne_empty _

/-- A concrete composed environment for the user-data generator. -/
def sampleGenEnv : GenEnv :=
  { emailEnv := { timestamp := "1700000000000", randomString := "k2j4" }
    pwEnv := samplePasswordEnv
    companyIdx1 := 0
    companyIdx2 := 0
    phoneEnv := { us1 := 0, us2 := 0, us3 := 0, uk1 := 0, uk2 := 0,
                  other1 := 0, other2 := 0 } }

/-- C5 counterexample: `generateUserData(\x7bfirstName: "John"\x7d)` does
return `firstName = "John"`, but its `confirmPassword` field is the literal
`null` rather than a non-empty default, so not every other field of the
returned object is a non-empty default value. -/
theorem generateUserData_confirmPassword_null :
    (generateUserData { firstName := some "John" } sampleGenEnv).firstName = "John"
  ∧ (generateUserData { firstName := some "John" } sampleGenEnv).confirmPassword
      = none
  ∧ ¬ (∃ s : String,
        (generateUserData { firstName := some "John" } sampleGenEnv).confirmPassword
            = some s ∧ s ≠ "") := by
  refine ⟨rfl, rfl, ?_⟩
  rintro ⟨s, hs, -⟩
  have h2 : (generateUserData { firstName := some "John" } sampleGenEnv).confirmPassword
      = none := rfl
  rw [h2] at hs
  cases hs

end Reap
